import Mathlib

/-!
Verification development for the bs.to series scraper / index manager.

The development shallowly embeds the merge (reconciliation) logic of
`src/index_manager.py` (`print_changes`, `confirm_and_save_changes`), the
season-processing loop and cache-skip heuristic of `src/scraper.py`
(`is_regular_season`, `_process_series_with_driver`), the work partitioner
and the checkpoint / failed-set / pause file lifecycle of
`_scrape_series_parallel` and `BsToScraper.run`, and the pause signalling of
`main.py` (`pause_scraping`).

Python dicts are modelled as association lists with first-match lookup and
replace-in-place-or-append update, which matches Python dict semantics
(unique keys, insertion order preserved, update keeps the position).
-/

namespace BsTo

/-! ### Association lists (Python dict model) -/

/-- First element of `l` whose `key` equals `k` (Python dict lookup when keys
are unique, which holds for every dict the code builds). -/
def find_by {α : Type} {κ : Type} [DecidableEq κ] (key : α → κ) (k : κ) : List α → Option α
  | [] => none
  | x :: xs => if key x = k then some x else find_by key k xs

/-- Python `d[k] = v`: replace the first pair with key `k` in place, or append. -/
def alist_upsert {α : Type} {κ : Type} [DecidableEq κ] (k : κ) (v : α) :
    List (κ × α) → List (κ × α)
  | [] => [(k, v)]
  | p :: rest => if p.1 = k then (k, v) :: rest else p :: alist_upsert k v rest

/-- Python `d.get(k)` on an association list. -/
def alist_lookup {α : Type} {κ : Type} [DecidableEq κ] (k : κ) (l : List (κ × α)) : Option α :=
  (find_by Prod.fst k l).map Prod.snd

/-- Generic shape of the merge loops in the code: fold over `items`, each step
computing a value from the current dict and upserting it at the item's key.
Python `for b in items: d[key(b)] = combine(d, b)`. -/
def merge_fold {α β : Type} {κ : Type} [DecidableEq κ] (key : β → κ)
    (combine : List (κ × α) → β → α) (init : List (κ × α)) (items : List β) :
    List (κ × α) :=
  items.foldl (fun acc b => alist_upsert (key b) (combine acc b) acc) init

/-- Python `{key(x): x for x in xs}`. -/
def dict_of {α : Type} {κ : Type} [DecidableEq κ] (key : α → κ) (xs : List α) :
    List (κ × α) :=
  merge_fold key (fun _ x => x) [] xs

/-! ### Data model (the dict shapes the code reads and writes) -/

/-- Episode record: `{'number': …, 'title': …, 'watched': …}`. -/
structure Episode where
  number : String
  title : String
  watched : Bool
deriving Repr, DecidableEq

/-- Season record: `{'season': label, 'url': …, 'episodes': […],
'watched_episodes': n, 'total_episodes': m}`.  The two counters are stored
fields, exactly as in the JSON the code round-trips. -/
structure Season where
  season : String
  url : String
  episodes : List Episode
  watched_episodes : Nat
  total_episodes : Nat
deriving Repr, DecidableEq

/-- Series record as stored in the index / produced by the scraper. -/
structure SeriesEntry where
  title : String
  link : String
  url : String
  seasons : List Season
  watched_episodes : Nat
  total_episodes : Nat
  status : String
  added_date : String
  last_updated : String
deriving Repr, DecidableEq

/-- Number of watched episodes in a season list:
`sum(sum(1 for ep in s['episodes'] if ep.get('watched')) for s in seasons)`. -/
def count_watched (seasons : List Season) : Nat :=
  (seasons.map (fun s => s.episodes.countP (fun ep => ep.watched))).sum

/-- Statement-level lookups (unique keys make them agree with dict lookup). -/
def lookup_title (t : String) (xs : List SeriesEntry) : Option SeriesEntry :=
  find_by SeriesEntry.title t xs

def lookup_season (l : String) (xs : List Season) : Option Season :=
  find_by Season.season l xs

def lookup_episode (n : String) (xs : List Episode) : Option Episode :=
  find_by Episode.number n xs

/-! ### Change detection — `index_manager.print_changes` (lines 99-158)

The function classifies every episode of the fresh data against
`old_eps[(season_label, ep_number)]`, a dict built by iterating all seasons
and episodes of the old entry in order (later assignments overwrite).
Iteration order over the title sets is Python set order and is irrelevant
here: only membership in the change lists is ever used. -/

/-- Change classification of one fresh episode (lines 148-156). -/
inductive EpChange
  | newEp
  | toWatched
  | toUnwatched
  | unchanged
deriving Repr, DecidableEq

/-- Python `old_eps` of one old entry: keyed by `(season_label, number)`,
built season by season, episode by episode (lines 134-138). -/
def old_eps_map (oe : SeriesEntry) : List ((String × String) × Bool) :=
  oe.seasons.foldl
    (fun acc s =>
      s.episodes.foldl (fun a ep => alist_upsert (s.season, ep.number) ep.watched a) acc)
    []

/-- Classification of one fresh episode of season `s_label` against `old_eps`
(lines 144-156). -/
def ep_change_class (old_eps : List ((String × String) × Bool)) (s_label : String)
    (ep : Episode) : EpChange :=
  match alist_lookup (s_label, ep.number) old_eps with
  | none => .newEp
  | some ow =>
      if ow ≠ ep.watched then
        if ow = false ∧ ep.watched = true then .toWatched
        else if ow = true ∧ ep.watched = false then .toUnwatched
        else .unchanged
      else .unchanged

/-- All `(season_label, number)` pairs of `ne` whose class is `cls`
(the nested loop of lines 141-156, one change category at a time). -/
def entry_changes_of (cls : EpChange) (oe ne : SeriesEntry) : List (String × String) :=
  ne.seasons.flatMap fun s =>
    s.episodes.filterMap fun ep =>
      if ep_change_class (old_eps_map oe) s.season ep = cls then some (s.season, ep.number)
      else none

/-- Result record of `print_changes`. -/
structure Changes where
  new_series : List String
  new_episodes : List (String × String × String)
  newly_watched : List (String × String × String)
  newly_unwatched : List (String × String × String)
deriving Repr, DecidableEq

/-- One change category over all titles present in both dicts (lines 129-156). -/
def changes_list (cls : EpChange) (oldD newD : List (String × SeriesEntry)) :
    List (String × String × String) :=
  newD.flatMap fun p =>
    match alist_lookup p.1 oldD with
    | some oe => (entry_changes_of cls oe p.2).map (fun q => (p.1, q.1, q.2))
    | none => []

/-- Model of `print_changes(old_data, new_data)` (both already dicts). -/
def print_changes (oldD newD : List (String × SeriesEntry)) : Changes :=
  { new_series := (newD.map Prod.fst).filter (fun t => (alist_lookup t oldD).isNone)
    new_episodes := changes_list .newEp oldD newD
    newly_watched := changes_list .toWatched oldD newD
    newly_unwatched := changes_list .toUnwatched oldD newD }

/-! ### Merge — `confirm_and_save_changes` (lines 277-463) -/

/-- Gating of one episode matched by number (lines 410-418): a completion is
applied only under `allow_watched`, a regression only under
`allow_unwatched`, anything else keeps the old watched value. -/
def gated_episode (allow_watched allow_unwatched : Bool) (old_ep new_ep : Episode) :
    Episode :=
  if allow_watched && (!old_ep.watched && new_ep.watched) then
    { new_ep with watched := true }
  else if allow_unwatched && (old_ep.watched && !new_ep.watched) then
    { new_ep with watched := false }
  else
    { new_ep with watched := old_ep.watched }

/-- Merged episode list of one season pair (lines 405-419): iterate the fresh
episodes; for numbers already known, gate the watched flag; episodes that
exist only in the old season are not appended. -/
def merge_episodes (allow_watched allow_unwatched : Bool)
    (old_episodes new_episodes : List Episode) : List Episode :=
  let old_eps := dict_of Episode.number old_episodes
  new_episodes.map fun new_ep =>
    match alist_lookup new_ep.number old_eps with
    | some old_ep => gated_episode allow_watched allow_unwatched old_ep new_ep
    | none => new_ep

/-- Season-dict merge of one matched entry (lines 401-422): start from the
dict of old seasons, then for each fresh season either splice the merged
episode list into the old season (keeping its other stored fields) or add the
fresh season. -/
def merge_seasons (allow_watched allow_unwatched : Bool)
    (old_entry new_entry : SeriesEntry) : List (String × Season) :=
  merge_fold Season.season
    (fun acc ns =>
      match alist_lookup ns.season acc with
      | some os =>
          { os with
            episodes := merge_episodes allow_watched allow_unwatched os.episodes ns.episodes }
      | none => ns)
    (dict_of Season.season old_entry.seasons)
    new_entry.seasons

/-- Merge of one matched entry (lines 398-430): seasons merged, watched count
recomputed from the merged episodes, total taken from the seasons' stored
`total_episodes` fields, url refreshed, `last_updated` set to now. -/
def merge_entry (allow_watched allow_unwatched : Bool) (now : String)
    (old_entry new_entry : SeriesEntry) : SeriesEntry :=
  let seasons := (merge_seasons allow_watched allow_unwatched old_entry new_entry).map Prod.snd
  { old_entry with
    status := "active"
    seasons := seasons
    watched_episodes := count_watched seasons
    total_episodes := (seasons.map Season.total_episodes).sum
    url := new_entry.url
    last_updated := now }

/-- New series initialisation (lines 432-435). -/
def init_new_entry (now : String) (ne : SeriesEntry) : SeriesEntry :=
  { ne with added_date := now, status := "active" }

/-- Merged dict (lines 390-435): start from the old dict; for every fresh
entry either merge into the matched old entry or add it as a new series. -/
def build_merged (allow_watched allow_unwatched : Bool) (now : String)
    (oldD newD : List (String × SeriesEntry)) : List (String × SeriesEntry) :=
  merge_fold Prod.fst
    (fun merged p =>
      match alist_lookup p.1 merged with
      | some old_entry => merge_entry allow_watched allow_unwatched now old_entry p.2
      | none => init_new_entry now p.2)
    oldD
    newD

/-- Gate flags (lines 318-383): a gate can only be approved if its change list
is non-empty (otherwise no prompt is shown and the flag stays `False`);
`watched_resp` / `unwatched_resp` model the operator answering `y`. -/
def allow_watched_flag (watched_resp : Bool) (changes : Changes) : Bool :=
  !changes.newly_watched.isEmpty && watched_resp

def allow_unwatched_flag (unwatched_resp : Bool) (changes : Changes) : Bool :=
  !changes.newly_unwatched.isEmpty && unwatched_resp

/-- The merged index produced by `confirm_and_save_changes` before the final
save prompt, as a list (`list(merged.values())`, line 454). -/
def confirm_merge (watched_resp unwatched_resp : Bool) (now : String)
    (old_data new_data : List SeriesEntry) : List SeriesEntry :=
  let newD := dict_of SeriesEntry.title new_data
  let oldD := dict_of SeriesEntry.title old_data
  let changes := print_changes oldD newD
  let aw := allow_watched_flag watched_resp changes
  let au := allow_unwatched_flag unwatched_resp changes
  (build_merged aw au now oldD newD).map Prod.snd

/-- Count of changes still in effect (lines 385-439): the gate-cleared lists
contribute nothing; `newly_unwatched` is counted only when allowed. -/
def main_changes_count (watched_resp unwatched_resp : Bool) (changes : Changes) : Nat :=
  changes.new_series.length + changes.new_episodes.length
    + (if allow_watched_flag watched_resp changes then changes.newly_watched.length else 0)
    + (if allow_unwatched_flag unwatched_resp changes then
        changes.newly_unwatched.length else 0)

/-- Full outcome of `confirm_and_save_changes`: the returned Bool and the
index list written to `SERIES_INDEX_FILE`, if any (lines 436-459).  When the
count is zero the function returns `True` without writing; otherwise the
merged list is written only on the final `y`. -/
def confirm_and_save_changes (watched_resp unwatched_resp save_resp : Bool) (now : String)
    (old_data new_data : List SeriesEntry) : Bool × Option (List SeriesEntry) :=
  let changes := print_changes (dict_of SeriesEntry.title old_data)
      (dict_of SeriesEntry.title new_data)
  if main_changes_count watched_resp unwatched_resp changes = 0 then (true, none)
  else if save_resp then
    (true, some (confirm_merge watched_resp unwatched_resp now old_data new_data))
  else (false, none)

/-! ### Season classification — `scraper.is_regular_season` (lines 34-44)

The Python regex is `^(staffel|season|s)?\s*\d+$` with `re.IGNORECASE` on the
stripped label.  Modelled for ASCII labels: lowercase the trimmed label, then
accept an optional literal `staffel` / `season` / `s` followed by whitespace
and at least one digit. -/

/-- Python `str.strip()` on ASCII whitespace (structural, so that concrete
labels evaluate in proofs; Lean's own `String.trim` is not kernel-reducible). -/
def strip_spaces (cs : List Char) : List Char :=
  ((cs.dropWhile Char.isWhitespace).reverse.dropWhile Char.isWhitespace).reverse

/-- Python `s.lower().strip()` for ASCII strings. -/
def lower_strip (s : String) : String :=
  String.mk (strip_spaces (s.data.map Char.toLower))

/-- Matches the regex tail `\s*\d+$`. -/
def spaces_then_digits (cs : List Char) : Bool :=
  let ds := cs.dropWhile (fun c => c.isWhitespace)
  !ds.isEmpty && ds.all (fun c => c.isDigit)

/-- Consume a literal word at the front of `cs`, if present. -/
def chop_lit : List Char → List Char → Option (List Char)
  | [], rest => some rest
  | _ :: _, [] => none
  | a :: ws, b :: bs => if b = a then chop_lit ws bs else none

/-- Model of `is_regular_season(season_label)`. -/
def is_regular_season (label : String) : Bool :=
  let cs := strip_spaces (label.data.map Char.toLower)
  spaces_then_digits cs
  || (match chop_lit ("staffel".toList) cs with
      | some r => spaces_then_digits r
      | none => false)
  || (match chop_lit ("season".toList) cs with
      | some r => spaces_then_digits r
      | none => false)
  || (match chop_lit ("s".toList) cs with
      | some r => spaces_then_digits r
      | none => false)

/-! ### Per-entity season processing — `_process_series_with_driver`
(scraper.py lines 1287-1444)

The browser is abstracted as a `fetch` oracle mapping a season url to the
episode list `scrape_episodes_from_html` would parse from the loaded page
(the success path; a fetch exception skips the season and is outside these
claims).  `existing_seasons` is the dict built from the cached index entry
(lines 1311-1315).  Each result additionally records whether the branch
performed a live `driver.get(season_url)` — the observable the cache-skip
claims are about. -/

/-- One `(label, href, watched_status)` triple from `get_season_links`; the
status is the literal Python string `"full"` or `"none"`. -/
structure SeasonLink where
  label : String
  url : String
  status : String
deriving Repr, DecidableEq

/-- Result of processing one season: the `seasons_data` record appended by the
code, whether `skipped_seasons` was incremented, and whether a live page load
happened. -/
structure SeasonResult where
  data : Season
  skipped : Bool
  live_fetch : Bool
deriving Repr, DecidableEq

/-- Season data record as assembled at lines 1413-1419. -/
def mk_season_data (sl : SeasonLink) (episodes : List Episode)
    (watched_count total_count : Nat) : Season :=
  { season := sl.label
    url := sl.url
    episodes := episodes
    watched_episodes := watched_count
    total_episodes := total_count }

/-- Cached episodes re-emitted with a forced watched flag (lines 1341-1348,
1369-1375, 1381-1387). -/
def forced_episodes (w : Bool) (eps : List Episode) : List Episode :=
  eps.map fun ep => { number := ep.number, title := ep.title, watched := w }

/-- Branch structure of the loop body, lines 1334-1406. -/
def process_season (fetch : String → List Episode)
    (existing_seasons : List (String × Season)) (assume_grey_unwatched : Bool)
    (sl : SeasonLink) : SeasonResult :=
  let cached_season := alist_lookup sl.label existing_seasons
  if assume_grey_unwatched && sl.status == "none" && is_regular_season sl.label then
    match cached_season with
    | some cs =>
        if !cs.episodes.isEmpty then
          let episodes := forced_episodes false cs.episodes
          ⟨mk_season_data sl episodes 0 episodes.length, true, false⟩
        else
          let episodes := forced_episodes false (fetch sl.url)
          ⟨mk_season_data sl episodes 0 episodes.length, false, true⟩
    | none =>
        let episodes := forced_episodes false (fetch sl.url)
        ⟨mk_season_data sl episodes 0 episodes.length, false, true⟩
  else
    match cached_season with
    | some cs =>
        if !cs.episodes.isEmpty then
          if sl.status == "full" then
            let episodes := forced_episodes true cs.episodes
            ⟨mk_season_data sl episodes episodes.length episodes.length, true, false⟩
          else if sl.status == "none" && cs.watched_episodes == 0 then
            let episodes := forced_episodes false cs.episodes
            ⟨mk_season_data sl episodes 0 episodes.length, true, false⟩
          else
            let episodes := fetch sl.url
            ⟨mk_season_data sl episodes (episodes.countP (fun ep => ep.watched))
              episodes.length, false, true⟩
        else
          let episodes := fetch sl.url
          ⟨mk_season_data sl episodes (episodes.countP (fun ep => ep.watched))
            episodes.length, false, true⟩
    | none =>
        let episodes := fetch sl.url
        ⟨mk_season_data sl episodes (episodes.countP (fun ep => ep.watched))
          episodes.length, false, true⟩

/-- Loop of lines 1326-1424, threading the element index and the
`assume_grey_unwatched` flag; the flag is set after the first season when its
hint was `"none"` and its result was non-empty and fully unwatched
(lines 1408-1411 — note: no `is_regular_season` test there). -/
def process_seasons_loop (fetch : String → List Episode)
    (existing_seasons : List (String × Season)) :
    List SeasonLink → Nat → Bool → List SeasonResult
  | [], _, _ => []
  | sl :: rest, idx, assume_flag =>
      let r := process_season fetch existing_seasons assume_flag sl
      let assume2 :=
        if idx == 0 && sl.status == "none" && r.data.watched_episodes == 0
            && r.data.total_episodes != 0 then true
        else assume_flag
      r :: process_seasons_loop fetch existing_seasons rest (idx + 1) assume2

/-- Dict of cached seasons of the existing index entry (lines 1311-1315). -/
def existing_seasons_of : Option SeriesEntry → List (String × Season)
  | none => []
  | some e => dict_of Season.season e.seasons

/-- Season results of one entity, including the
`if not season_links: season_links = [("1", url, "none")]` default
(lines 1307-1309). -/
def process_series_with_driver (fetch : String → List Episode)
    (existing_entry : Option SeriesEntry) (url : String) (links : List SeasonLink) :
    List SeasonResult :=
  let links := if links.isEmpty then [⟨"1", url, "none"⟩] else links
  process_seasons_loop fetch (existing_seasons_of existing_entry) links 0 false

/-! ### Work partitioner — `_scrape_series_parallel` (scraper.py lines 896-939) -/

/-- Catalog record `{'title': …, 'link': …, 'url': …}` from `get_all_series`. -/
structure SeriesHint where
  title : String
  link : String
  url : String
deriving Repr, DecidableEq

/-- Utility pages filtered out of the catalog (lines 925-927). -/
def utility_pages : List String := ["alle serien", "andere serien", "beliebte serien"]

/-- `filtered_series` (line 927): drop utility pages, case-insensitively
(`s.get('title', '').lower().strip()`). -/
def filter_series (all_series : List SeriesHint) : List SeriesHint :=
  all_series.filter (fun s => !(utility_pages.contains (lower_strip s.title)))

/-- `worker_count = min(max_workers_allowed, total_series) or 1` (line 931). -/
def worker_count_of (cap total_series : Nat) : Nat :=
  let w := min cap total_series
  if w = 0 then 1 else w

/-- Round-robin distribution loop (lines 934-936):
`worker_pools[idx % worker_count].append(series)` over the enumerated list. -/
def distribute_aux (n : Nat) : List SeriesHint → Nat → List (List SeriesHint) →
    List (List SeriesHint)
  | [], _, pools => pools
  | x :: xs, i, pools =>
      distribute_aux n xs (i + 1) (pools.set (i % n) (pools.getD (i % n) [] ++ [x]))

/-- `worker_pools` after the distribution loop (lines 934-936). -/
def worker_pools (n : Nat) (xs : List SeriesHint) : List (List SeriesHint) :=
  distribute_aux n xs 0 (List.replicate n [])

/-! ### Checkpoint / FailedSet lifecycle — `_scrape_series_parallel`,
`worker_loop` and `BsToScraper.run` (scraper.py lines 896-1142, 1534-1570)

Per-entity outcomes are serialised by the shared `lock`, so a parallel run is
modelled as a list of outcome events folded over the shared state.
`interrupted` models `KeyboardInterrupt` caught at lines 1107-1113: the
method prints a resume hint and returns early (skipping the failed-series
save), after which `run` still executes lines 1565-1567 and deletes both
files.  The worker-pid file is bookkeeping outside these claims. -/

/-- On-disk artifacts of a run: `some c` means the file exists with content
`c`, `none` means it was deleted / never written. -/
structure RunFiles where
  checkpoint : Option (List String)
  failed : Option (List SeriesHint)
deriving Repr, DecidableEq

/-- Shared scraper state during a parallel run. -/
structure ScrapeState where
  completed_links : List String
  failed_links : List SeriesHint
  completed : Nat
  failed : Nat
  files : RunFiles
deriving Repr, DecidableEq

/-- Per-entity outcome inside `worker_loop` (lines 1017-1045): a truthy
result, a falsy result (counted failed but not recorded), or an exception
(recorded in `failed_links`). -/
inductive WorkerEvent
  | ok (s : SeriesHint)
  | skip (s : SeriesHint)
  | err (s : SeriesHint)
deriving Repr, DecidableEq

/-- `completed_links` is a Python set; adding keeps one copy. -/
def insert_link (l : String) (links : List String) : List String :=
  if l ∈ links then links else links ++ [l]

/-- `save_checkpoint` (lines 231-238): write the current link set. -/
def save_checkpoint (st : ScrapeState) : ScrapeState :=
  { st with files := { st.files with checkpoint := some st.completed_links } }

/-- One locked outcome block of `worker_loop` (lines 1020-1045): on success
record the link, bump the counter and flush the checkpoint after every 10th
success; on a falsy result only count; on an exception count and append the
series to `failed_links`. -/
def worker_step (st : ScrapeState) (e : WorkerEvent) : ScrapeState :=
  match e with
  | .ok s =>
      let st2 := { st with
        completed_links := insert_link s.link st.completed_links
        completed := st.completed + 1 }
      if st2.completed % 10 == 0 then save_checkpoint st2 else st2
  | .skip _ => { st with failed := st.failed + 1 }
  | .err s => { st with failed := st.failed + 1, failed_links := st.failed_links ++ [s] }

/-- `save_failed_series` (lines 260-269): write the list only when non-empty. -/
def save_failed_series (st : ScrapeState) : ScrapeState :=
  if st.failed_links.isEmpty then st
  else { st with files := { st.files with failed := some st.failed_links } }

/-- `clear_checkpoint` (lines 252-258) and `clear_failed_series`
(lines 282-288): delete the files. -/
def clear_checkpoint (st : ScrapeState) : ScrapeState :=
  { st with files := { st.files with checkpoint := none } }

def clear_failed_series (st : ScrapeState) : ScrapeState :=
  { st with files := { st.files with failed := none } }

/-- `_scrape_series_parallel` outcome handling: fold the events; on
`KeyboardInterrupt` return early (lines 1107-1113), otherwise save the failed
set if non-empty (lines 1130-1133). -/
def scrape_series_parallel (st0 : ScrapeState) (events : List WorkerEvent)
    (interrupted : Bool) : ScrapeState :=
  let st := events.foldl worker_step st0
  if interrupted then st else save_failed_series st

/-- `BsToScraper.run` tail (lines 1564-1567): after the scraping method
returns — which it also does on a caught interrupt or on pause — the
checkpoint and the failed set are cleared unconditionally. -/
def run_scraper (st0 : ScrapeState) (events : List WorkerEvent)
    (interrupted : Bool) : ScrapeState :=
  clear_failed_series (clear_checkpoint (scrape_series_parallel st0 events interrupted))

/-- Fresh scraper state (`BsToScraper.__init__`, lines 96-97) over a data
directory whose run files may carry leftovers `fs`. -/
def init_state (fs : RunFiles) : ScrapeState :=
  { completed_links := [], failed_links := [], completed := 0, failed := 0, files := fs }

/-! ### Pause signalling — `main.pause_scraping` (main.py lines 450-460) and
`BsToScraper.is_pause_requested` (scraper.py lines 92-94, 290-292)

Both modules join their file name onto the same `DATA_DIR` from
`config.config`.  The filesystem is a predicate on paths. -/

def DATA_DIR : String := "data"

def path_join (d f : String) : String := d ++ "/" ++ f

/-- `self.pause_file = os.path.join(DATA_DIR, '.scrape_pause')` (scraper.py line 94). -/
def pause_file_scraper : String := path_join DATA_DIR ".scrape_pause"

/-- `pause_file = os.path.join(DATA_DIR, '.pause_scraping')` (main.py line 452). -/
def pause_file_cli : String := path_join DATA_DIR ".pause_scraping"

/-- A filesystem: which paths exist. -/
def FileSystem : Type := String → Bool

/-- `pause_scraping` (main.py lines 450-460): create the CLI's pause file. -/
def pause_scraping (fs : FileSystem) : FileSystem :=
  fun p => if p = pause_file_cli then true else fs p

/-- `is_pause_requested` (scraper.py lines 290-292): the check every worker
runs between entities (line 1013). -/
def is_pause_requested (fs : FileSystem) : Bool := fs pause_file_scraper

/-! ### Concrete inputs used by witnesses and counterexamples -/

/-- C1 witness input: prior season with one watched and one unwatched
episode. -/
def c1_old_season : Season :=
  ⟨"1", "https://bs.to/serie/x/1", [⟨"1", "a", true⟩, ⟨"2", "b", false⟩], 1, 2⟩

/-- C1 witness input: fresh season with a regression on episode 1 and a
completion on episode 2. -/
def c1_new_season : Season :=
  ⟨"1", "https://bs.to/serie/x/1", [⟨"1", "a", false⟩, ⟨"2", "b", true⟩], 1, 2⟩

def c1_old_entry : SeriesEntry :=
  ⟨"X", "/serie/x", "https://bs.to/serie/x", [c1_old_season], 1, 2, "active", "d0", "d0"⟩

def c1_new_entry : SeriesEntry :=
  ⟨"X", "/serie/x", "https://bs.to/serie/x", [c1_new_season], 1, 2, "", "", ""⟩

/-- C2 witness input: a persisted entity the run does not cover. -/
def c2_old_entry : SeriesEntry :=
  ⟨"Y", "/serie/y", "https://bs.to/serie/y",
    [⟨"1", "https://bs.to/serie/y/1", [⟨"1", "Pilot", true⟩], 1, 1⟩],
    1, 1, "active", "2024", "2024"⟩

/-- C2 witness input: the only entity the run covers. -/
def c2_new_entry : SeriesEntry :=
  ⟨"X", "/serie/x", "https://bs.to/serie/x",
    [⟨"1", "https://bs.to/serie/x/1", [⟨"1", "Intro", false⟩], 0, 1⟩],
    0, 1, "", "", ""⟩

/-- C3 input: ten successfully scraped entities (enough for one flush). -/
def c3_hints : List SeriesHint :=
  [⟨"t1", "/serie/s1", "u1"⟩, ⟨"t2", "/serie/s2", "u2"⟩, ⟨"t3", "/serie/s3", "u3"⟩,
   ⟨"t4", "/serie/s4", "u4"⟩, ⟨"t5", "/serie/s5", "u5"⟩, ⟨"t6", "/serie/s6", "u6"⟩,
   ⟨"t7", "/serie/s7", "u7"⟩, ⟨"t8", "/serie/s8", "u8"⟩, ⟨"t9", "/serie/s9", "u9"⟩,
   ⟨"t10", "/serie/s10", "u10"⟩]

def c3_events : List WorkerEvent := c3_hints.map WorkerEvent.ok

/-- C4 input: one entity whose fetch raises. -/
def c4_hint : SeriesHint := ⟨"Y", "/serie/y", "https://bs.to/serie/y"⟩

/-- C6 input: prior season stores 3 episodes (stored total counter 3). -/
def c6_old_season : Season :=
  ⟨"1", "https://bs.to/serie/x/1",
    [⟨"1", "a", false⟩, ⟨"2", "b", false⟩, ⟨"3", "c", false⟩], 0, 3⟩

/-- C6 input: the fresh fetch finds 5 episodes in the same season. -/
def c6_new_season : Season :=
  ⟨"1", "https://bs.to/serie/x/1",
    [⟨"1", "a", false⟩, ⟨"2", "b", false⟩, ⟨"3", "c", false⟩,
     ⟨"4", "d", false⟩, ⟨"5", "e", false⟩], 0, 5⟩

def c6_old_entry : SeriesEntry :=
  ⟨"X", "/serie/x", "https://bs.to/serie/x", [c6_old_season], 0, 3, "active", "d0", "d0"⟩

def c6_new_entry : SeriesEntry :=
  ⟨"X", "/serie/x", "https://bs.to/serie/x", [c6_new_season], 0, 5, "", "", ""⟩

/-- C7 counterexample: the live pages — the Specials season shows one
unwatched episode, season 2 shows its episode as watched. -/
def c7_fetch : String → List Episode := fun u =>
  if u = "uS" then [⟨"1", "sp", false⟩]
  else if u = "u2" then [⟨"1", "a", true⟩]
  else []

/-- C7 counterexample: cached index entry whose season 2 has one episode,
previously watched (so the plain cache-skip rule would require a live
fetch). -/
def c7_existing_entry : SeriesEntry :=
  ⟨"Z", "/serie/z", "https://bs.to/serie/z",
    [⟨"2", "u2", [⟨"1", "a", true⟩], 1, 1⟩],
    1, 1, "active", "d0", "d0"⟩

/-- C7 counterexample: the first season link is the special season. -/
def c7_links : List SeasonLink := [⟨"Specials", "uS", "none"⟩, ⟨"2", "u2", "none"⟩]

/-- C9 witness input: a live page with one watched episode. -/
def c9_fetch : String → List Episode := fun _ => [⟨"1", "a", true⟩]

/-- C9 witness input: a season link whose hint is fully-complete. -/
def c9_link : SeasonLink := ⟨"3", "u3", "full"⟩

/-- C8 witness input: a five-entity catalog. -/
def c8_catalog : List SeriesHint :=
  [⟨"A", "/serie/a", "ua"⟩, ⟨"B", "/serie/b", "ub"⟩, ⟨"C", "/serie/c", "uc"⟩,
   ⟨"D", "/serie/d", "ud"⟩, ⟨"E", "/serie/e", "ue"⟩]

/-- C10 witness inputs: the prior season has episode 9 that the fresh fetch
no longer reports. -/
def c10_old_season : Season :=
  ⟨"1", "https://bs.to/serie/x/1", [⟨"1", "a", true⟩, ⟨"9", "lost", true⟩], 2, 2⟩

def c10_new_season : Season :=
  ⟨"1", "https://bs.to/serie/x/1", [⟨"1", "a", true⟩, ⟨"2", "b", false⟩], 1, 2⟩

def c10_old_entry : SeriesEntry :=
  ⟨"X", "/serie/x", "https://bs.to/serie/x", [c10_old_season], 2, 2, "active", "d0", "d0"⟩

def c10_new_entry : SeriesEntry :=
  ⟨"X", "/serie/x", "https://bs.to/serie/x", [c10_new_season], 1, 2, "", "", ""⟩

/-! ## Lemmas about the dict model -/

section AListLemmas

variable {α β : Type} {κ : Type} [DecidableEq κ]

theorem find_by_eq {key : α → κ} {k : κ} {l : List α} {x : α}
    (h : find_by key k l = some x) : key x = k := by
  induction l with
  | nil => simp [find_by] at h
  | cons y ys ih =>
      by_cases hy : key y = k
      · simp [find_by, hy] at h
        subst h
        exact hy
      · simp [find_by, hy] at h
        exact ih h

theorem find_by_mem {key : α → κ} {k : κ} {l : List α} {x : α}
    (h : find_by key k l = some x) : x ∈ l := by
  induction l with
  | nil => simp [find_by] at h
  | cons y ys ih =>
      by_cases hy : key y = k
      · simp [find_by, hy] at h
        simp [h]
      · simp [find_by, hy] at h
        exact List.mem_cons_of_mem _ (ih h)

theorem find_by_split {key : α → κ} {k : κ} {l : List α} {x : α}
    (h : find_by key k l = some x) :
    ∃ pre post, l = pre ++ x :: post ∧ ∀ y ∈ pre, key y ≠ k := by
  induction l with
  | nil => simp [find_by] at h
  | cons y ys ih =>
      by_cases hy : key y = k
      · simp [find_by, hy] at h
        exact ⟨[], ys, by simp [h], by simp⟩
      · simp [find_by, hy] at h
        obtain ⟨pre, post, hsplit, hpre⟩ := ih h
        refine ⟨y :: pre, post, by simp [hsplit], ?_⟩
        intro z hz
        rcases List.mem_cons.mp hz with hz | hz
        · subst hz; exact hy
        · exact hpre z hz

theorem find_by_eq_none {key : α → κ} {k : κ} {l : List α}
    (h : ∀ y ∈ l, key y ≠ k) : find_by key k l = none := by
  induction l with
  | nil => rfl
  | cons y ys ih =>
      simp only [find_by, if_neg (h y (List.mem_cons_self y ys))]
      exact ih fun z hz => h z (List.mem_cons_of_mem _ hz)

theorem find_by_map {key : α → κ} {k : κ} (f : β → α) (l : List β) :
    find_by key k (l.map f) = (find_by (fun b => key (f b)) k l).map f := by
  induction l with
  | nil => rfl
  | cons y ys ih =>
      by_cases hy : key (f y) = k
      · simp [find_by, hy]
      · simp [find_by, hy, ih]

theorem find_by_congr {key1 key2 : α → κ} {k : κ} {l : List α}
    (h : ∀ x ∈ l, key1 x = k ↔ key2 x = k) : find_by key1 k l = find_by key2 k l := by
  induction l with
  | nil => rfl
  | cons y ys ih =>
      have hy := h y (List.mem_cons_self y ys)
      by_cases h1 : key1 y = k
      · simp [find_by, h1, hy.mp h1]
      · have h2 : ¬ key2 y = k := fun h2 => h1 (hy.mpr h2)
        simp only [find_by, if_neg h1, if_neg h2]
        exact ih fun z hz => h z (List.mem_cons_of_mem _ hz)

theorem alist_lookup_upsert_self (k : κ) (v : α) (l : List (κ × α)) :
    alist_lookup k (alist_upsert k v l) = some v := by
  induction l with
  | nil => simp [alist_upsert, alist_lookup, find_by]
  | cons p rest ih =>
      by_cases hp : p.1 = k
      · simp [alist_upsert, hp, alist_lookup, find_by]
      · simpa [alist_upsert, hp, alist_lookup, find_by] using ih

theorem alist_lookup_upsert_ne {k' k : κ} (hne : k' ≠ k) (v : α) (l : List (κ × α)) :
    alist_lookup k' (alist_upsert k v l) = alist_lookup k' l := by
  have hkk : ¬ k = k' := fun h => hne h.symm
  induction l with
  | nil => simp [alist_upsert, alist_lookup, find_by, hkk]
  | cons p rest ih =>
      by_cases hp : p.1 = k
      · subst hp
        simp [alist_upsert, alist_lookup, find_by, hkk]
      · by_cases hp' : p.1 = k'
        · simp only [alist_upsert, if_neg hp, alist_lookup, find_by, if_pos hp']
        · simp only [alist_upsert, if_neg hp, alist_lookup, find_by, if_neg hp']
          exact ih

theorem mem_upsert {p : κ × α} {k : κ} {v : α} {l : List (κ × α)}
    (h : p ∈ alist_upsert k v l) : p = (k, v) ∨ p ∈ l := by
  induction l with
  | nil => simpa [alist_upsert] using h
  | cons q rest ih =>
      by_cases hq : q.1 = k
      · simp only [alist_upsert, if_pos hq] at h
        rcases List.mem_cons.mp h with h | h
        · exact Or.inl h
        · exact Or.inr (List.mem_cons_of_mem _ h)
      · simp only [alist_upsert, if_neg hq] at h
        rcases List.mem_cons.mp h with h | h
        · exact Or.inr (by simp [h])
        · rcases ih h with h | h
          · exact Or.inl h
          · exact Or.inr (List.mem_cons_of_mem _ h)

theorem keys_upsert (k : κ) (v : α) (l : List (κ × α)) :
    (alist_upsert k v l).map Prod.fst =
      if k ∈ l.map Prod.fst then l.map Prod.fst else l.map Prod.fst ++ [k] := by
  induction l with
  | nil => simp [alist_upsert]
  | cons p rest ih =>
      by_cases hp : p.1 = k
      · simp [alist_upsert, hp]
      · have hkp : ¬ k = p.1 := fun h => hp h.symm
        by_cases hk : k ∈ rest.map Prod.fst <;>
          simp [alist_upsert, hp, ih, hkp, hk]

theorem keys_nodup_upsert {k : κ} {v : α} {l : List (κ × α)}
    (h : (l.map Prod.fst).Nodup) : ((alist_upsert k v l).map Prod.fst).Nodup := by
  rw [keys_upsert]
  by_cases hk : k ∈ l.map Prod.fst
  · simpa [hk] using h
  · simpa [hk, List.nodup_append] using h

theorem find_by_none_imp {key : α → κ} {k : κ} {l : List α}
    (h : find_by key k l = none) : ∀ y ∈ l, key y ≠ k := by
  induction l with
  | nil => simp
  | cons y ys ih =>
      by_cases hy : key y = k
      · simp [find_by, hy] at h
      · simp only [find_by, if_neg hy] at h
        intro z hz
        rcases List.mem_cons.mp hz with hz | hz
        · subst hz; exact hy
        · exact ih h z hz

omit [DecidableEq κ] in
theorem nodup_split_right {key : α → κ} {k : κ} {pre post : List α} {x : α}
    (hnd : (((pre ++ x :: post)).map key).Nodup) (hx : key x = k) :
    ∀ y ∈ post, key y ≠ k := by
  intro y hy
  have h1 : (key x :: post.map key).Nodup := by
    have := hnd
    simp only [List.map_append, List.map_cons, List.nodup_append] at this
    exact this.2.1
  have h2 : key x ∉ post.map key := (List.nodup_cons.mp h1).1
  intro hk
  exact h2 (by rw [hx, ← hk]; exact List.mem_map_of_mem key hy)

theorem alist_lookup_mem {k : κ} {v : α} {l : List (κ × α)}
    (h : alist_lookup k l = some v) : (k, v) ∈ l := by
  unfold alist_lookup at h
  cases hf : find_by Prod.fst k l with
  | none => simp [hf] at h
  | some p =>
      rw [hf] at h
      simp at h
      have hp1 : p.1 = k := find_by_eq hf
      have hmem := find_by_mem hf
      have : (k, v) = p := by
        cases p
        simp_all
      rw [this]
      exact hmem

theorem merge_fold_cons {key : β → κ} {c : List (κ × α) → β → α}
    (init : List (κ × α)) (b : β) (bs : List β) :
    merge_fold key c init (b :: bs) =
      merge_fold key c (alist_upsert (key b) (c init b) init) bs := rfl

theorem merge_fold_append {key : β → κ} {c : List (κ × α) → β → α}
    (init : List (κ × α)) (xs ys : List β) :
    merge_fold key c init (xs ++ ys) = merge_fold key c (merge_fold key c init xs) ys := by
  simp [merge_fold, List.foldl_append]

theorem merge_fold_lookup_not_mem {key : β → κ} {c : List (κ × α) → β → α}
    {init : List (κ × α)} {items : List β} {k : κ}
    (h : ∀ b ∈ items, key b ≠ k) :
    alist_lookup k (merge_fold key c init items) = alist_lookup k init := by
  induction items generalizing init with
  | nil => rfl
  | cons b bs ih =>
      rw [merge_fold_cons]
      rw [ih fun z hz => h z (List.mem_cons_of_mem _ hz)]
      exact alist_lookup_upsert_ne (fun hk => h b (List.mem_cons_self b bs) hk.symm) _ _

theorem merge_fold_lookup_split {key : β → κ} {c : List (κ × α) → β → α}
    {init : List (κ × α)} {pre post : List β} {b : β} {k : κ}
    (hb : key b = k) (hpost : ∀ y ∈ post, key y ≠ k) :
    alist_lookup k (merge_fold key c init (pre ++ b :: post)) =
      some (c (merge_fold key c init pre) b) := by
  rw [merge_fold_append, merge_fold_cons, merge_fold_lookup_not_mem hpost, ← hb]
  exact alist_lookup_upsert_self _ _ _

theorem merge_fold_pred {key : β → κ} {c : List (κ × α) → β → α}
    {init : List (κ × α)} {items : List β} {P : κ × α → Prop}
    (hinit : ∀ p ∈ init, P p)
    (hstep : ∀ acc b, b ∈ items → (∀ p ∈ acc, P p) → P (key b, c acc b)) :
    ∀ p ∈ merge_fold key c init items, P p := by
  induction items generalizing init with
  | nil => exact hinit
  | cons b bs ih =>
      rw [merge_fold_cons]
      refine ih ?_ ?_
      · intro p hp
        rcases mem_upsert hp with hp | hp
        · rw [hp]; exact hstep init b (List.mem_cons_self b bs) hinit
        · exact hinit p hp
      · intro acc z hz hacc
        exact hstep acc z (List.mem_cons_of_mem _ hz) hacc

theorem merge_fold_keys_nodup {key : β → κ} {c : List (κ × α) → β → α}
    {init : List (κ × α)} {items : List β}
    (h : (init.map Prod.fst).Nodup) :
    ((merge_fold key c init items).map Prod.fst).Nodup := by
  induction items generalizing init with
  | nil => exact h
  | cons b bs ih =>
      rw [merge_fold_cons]
      exact ih (keys_nodup_upsert h)

theorem dict_of_keys_nodup {key : α → κ} (xs : List α) :
    ((dict_of key xs).map Prod.fst).Nodup :=
  merge_fold_keys_nodup (by simp)

theorem dict_of_coherent {key : α → κ} {xs : List α} :
    ∀ p ∈ dict_of key xs, key p.2 = p.1 :=
  merge_fold_pred (by simp) (fun _ b _ _ => rfl)

theorem dict_of_lookup {key : α → κ} {xs : List α} {k : κ}
    (h : (xs.map key).Nodup) :
    alist_lookup k (dict_of key xs) = find_by key k xs := by
  cases hf : find_by key k xs with
  | none =>
      have := find_by_none_imp hf
      unfold dict_of
      rw [merge_fold_lookup_not_mem this]
      rfl
  | some x =>
      obtain ⟨pre, post, hsplit, hpre⟩ := find_by_split hf
      have hx : key x = k := find_by_eq hf
      have hpost : ∀ y ∈ post, key y ≠ k := by
        rw [hsplit] at h
        exact nodup_split_right h hx
      unfold dict_of
      rw [hsplit, merge_fold_lookup_split hx hpost]

theorem alist_lookup_split {k : κ} {v : α} {l : List (κ × α)}
    (hnd : (l.map Prod.fst).Nodup) (h : alist_lookup k l = some v) :
    ∃ pre post, l = pre ++ (k, v) :: post ∧ (∀ y ∈ pre, y.1 ≠ k) ∧
      ∀ y ∈ post, y.1 ≠ k := by
  unfold alist_lookup at h
  cases hf : find_by Prod.fst k l with
  | none => simp [hf] at h
  | some p =>
      rw [hf] at h
      simp at h
      have hp1 : p.1 = k := find_by_eq hf
      have hp : p = (k, v) := by cases p; simp_all
      obtain ⟨pre, post, hsplit, hpre⟩ := find_by_split hf
      rw [hp] at hsplit
      refine ⟨pre, post, hsplit, hpre, ?_⟩
      rw [hsplit] at hnd
      exact nodup_split_right hnd rfl

end AListLemmas

/-! ## Lemmas about the round-robin partitioner -/

section PartitionLemmas

theorem getD_set_self {α : Type} {l : List α} {k : Nat} {v d : α} (hk : k < l.length) :
    (l.set k v).getD k d = v := by
  induction l generalizing k with
  | nil => simp at hk
  | cons a as ih =>
      cases k with
      | zero => simp [List.set, List.getD]
      | succ k =>
          simp only [List.set, List.getD_cons_succ]
          exact ih (by simpa using hk)

theorem getD_set_ne {α : Type} {l : List α} {j k : Nat} {v d : α} (h : j ≠ k) :
    (l.set k v).getD j d = l.getD j d := by
  induction l generalizing j k with
  | nil => simp [List.set]
  | cons a as ih =>
      cases k with
      | zero =>
          cases j with
          | zero => exact absurd rfl h
          | succ j => simp [List.set]
      | succ k =>
          cases j with
          | zero => simp [List.set]
          | succ j =>
              simp only [List.set, List.getD_cons_succ]
              exact ih (fun hjk => h (by rw [hjk]))

theorem getD_replicate_nil {α : Type} (n j : Nat) :
    (List.replicate n ([] : List α)).getD j [] = [] := by
  induction n generalizing j with
  | zero => simp [List.getD]
  | succ n ih =>
      cases j with
      | zero => simp [List.replicate]
      | succ j => simp only [List.replicate, List.getD_cons_succ]; exact ih j

theorem flatten_set {α : Type} {pools : List (List α)} {k : Nat} (x : α)
    (hk : k < pools.length) :
    (pools.set k (pools.getD k [] ++ [x])).flatten.Perm (pools.flatten ++ [x]) := by
  induction pools generalizing k with
  | nil => simp at hk
  | cons p ps ih =>
      cases k with
      | zero =>
          simp only [List.getD_cons_zero, List.set, List.flatten_cons, List.append_assoc]
          exact List.Perm.append_left p List.perm_append_comm
      | succ k =>
          simp only [List.getD_cons_succ, List.set, List.flatten_cons]
          have h := ih (k := k) (by simpa using hk)
          simpa [List.append_assoc] using List.Perm.append_left p h

theorem distribute_aux_length (n : Nat) (xs : List SeriesHint) (i : Nat)
    (pools : List (List SeriesHint)) :
    (distribute_aux n xs i pools).length = pools.length := by
  induction xs generalizing i pools with
  | nil => rfl
  | cons x xs ih => simp [distribute_aux, ih]

theorem distribute_aux_flatten {n : Nat} (hn : 0 < n) (xs : List SeriesHint) (i : Nat)
    (pools : List (List SeriesHint)) (hlen : pools.length = n) :
    (distribute_aux n xs i pools).flatten.Perm (pools.flatten ++ xs) := by
  induction xs generalizing i pools with
  | nil => simp [distribute_aux]
  | cons x xs ih =>
      have hin : i % n < pools.length := by rw [hlen]; exact Nat.mod_lt _ hn
      have h1 := ih (i + 1) (pools.set (i % n) (pools.getD (i % n) [] ++ [x]))
        (by simp [hlen])
      have h2 : ((pools.set (i % n) (pools.getD (i % n) [] ++ [x])).flatten ++ xs).Perm
          ((pools.flatten ++ [x]) ++ xs) :=
        List.Perm.append_right xs (flatten_set x hin)
      have h3 : (pools.flatten ++ [x]) ++ xs = pools.flatten ++ x :: xs := by simp
      rw [distribute_aux]
      exact (h1.trans h2).trans (by rw [h3])

theorem distribute_aux_pool_length {n : Nat} (hn : 0 < n) (xs : List SeriesHint)
    (i : Nat) (pools : List (List SeriesHint)) (hlen : pools.length = n) (j : Nat) :
    ((distribute_aux n xs i pools).getD j []).length =
      (pools.getD j []).length +
        (List.range xs.length).countP (fun t => (i + t) % n = j) := by
  induction xs generalizing i pools with
  | nil => simp [distribute_aux]
  | cons x xs ih =>
      have hin : i % n < pools.length := by rw [hlen]; exact Nat.mod_lt _ hn
      rw [distribute_aux]
      rw [ih (i + 1) _ (by simp [hlen])]
      have hcount : (List.range (x :: xs).length).countP (fun t => (i + t) % n = j) =
          (if i % n = j then 1 else 0) +
            (List.range xs.length).countP (fun t => (i + 1 + t) % n = j) := by
        simp only [List.length_cons, List.range_succ_eq_map, List.countP_cons,
          List.countP_map]
        have hfun : ((fun t => decide ((i + t) % n = j)) ∘ Nat.succ) =
            fun t => decide ((i + 1 + t) % n = j) := by
          funext t
          simp only [Function.comp]
          have harith : i + Nat.succ t = i + 1 + t := by omega
          rw [harith]
        rw [hfun]
        by_cases hij : i % n = j
        · simp [hij, Nat.add_comm]
        · simp [hij]
      rw [hcount]
      by_cases hij : i % n = j
      · subst hij
        rw [getD_set_self hin]
        simp
        omega
      · rw [getD_set_ne (fun h => hij h.symm)]
        rw [if_neg hij]
        omega

theorem countP_mod_small {n M j : Nat} (hM : M ≤ n) :
    (List.range M).countP (fun t => t % n = j) = if j < M then 1 else 0 := by
  induction M with
  | zero => simp
  | succ M ih =>
      rw [List.range_succ, List.countP_append, ih (Nat.le_of_succ_le hM)]
      have hMn : M % n = M := Nat.mod_eq_of_lt (Nat.lt_of_lt_of_le (Nat.lt_succ_self M) hM)
      by_cases hj : j = M
      · subst hj
        simp [List.countP_cons, hMn, Nat.lt_succ_self, Nat.lt_irrefl]
      · have h2 : ¬ M % n = j := by rw [hMn]; exact fun h => hj h.symm
        simp only [List.countP_cons, List.countP_nil, h2]
        by_cases hjM : j < M
        · simp [hjM, Nat.lt_succ_of_lt hjM]
        · have : ¬ j < M + 1 := by omega
          simp [hjM, this]

theorem countP_mod_block {n m j : Nat} (hj : j < n) :
    (List.range (n + m)).countP (fun t => t % n = j) =
      1 + (List.range m).countP (fun t => t % n = j) := by
  rw [List.range_add, List.countP_append, List.countP_map]
  have h1 : (List.range n).countP (fun t => t % n = j) = 1 := by
    rw [countP_mod_small (Nat.le_refl n)]
    simp [hj]
  have h2 : ((fun t => decide (t % n = j)) ∘ fun x => n + x) =
      fun t => decide (t % n = j) := by
    funext t
    simp [Function.comp, Nat.add_mod_left]
  rw [h1, h2, Nat.add_comm]

theorem countP_mod_balanced {n : Nat} (M : Nat) {j k : Nat}
    (hj : j < n) (hk : k < n) :
    (List.range M).countP (fun t => t % n = j) ≤
      (List.range M).countP (fun t => t % n = k) + 1 := by
  induction M using Nat.strong_induction_on with
  | _ M ih =>
      by_cases hM : M < n
      · rw [countP_mod_small (Nat.le_of_lt hM), countP_mod_small (Nat.le_of_lt hM)]
        by_cases h1 : j < M <;> by_cases h2 : k < M <;> simp [h1, h2]
      · have hM' : n ≤ M := Nat.le_of_not_lt hM
        obtain ⟨m, rfl⟩ : ∃ m, M = n + m := ⟨M - n, by omega⟩
        rw [countP_mod_block hj, countP_mod_block hk]
        have hm : m < n + m := by omega
        have := ih m hm
        omega

end PartitionLemmas

/-! ## Characterisation of the merge -/

section MergeLemmas

/-- Lookup by a component key in the value list of a coherent alist. -/
theorem find_by_values {α : Type} {κ : Type} [DecidableEq κ] {key : α → κ}
    {l : List (κ × α)} {k : κ} (hco : ∀ p ∈ l, key p.2 = p.1) :
    find_by key k (l.map Prod.snd) = alist_lookup k l := by
  rw [find_by_map]
  unfold alist_lookup
  congr 1
  refine find_by_congr ?_
  intro p hp
  rw [hco p hp]

/-- Mapping a key-preserving function commutes with `find_by`. -/
theorem find_by_map_invariant {α : Type} {κ : Type} [DecidableEq κ] {key : α → κ}
    {f : α → α} {k : κ} {l : List α} (hf : ∀ x, key (f x) = key x) :
    find_by key k (l.map f) = (find_by key k l).map f := by
  rw [find_by_map]
  congr 1
  refine find_by_congr ?_
  intro x _
  rw [hf x]

/-- Entries of the merged dict keep their key as their title. -/
theorem build_merged_coherent {aw au : Bool} {now : String}
    {oldD newD : List (String × SeriesEntry)}
    (hold : ∀ p ∈ oldD, p.2.title = p.1) (hnew : ∀ p ∈ newD, p.2.title = p.1) :
    ∀ p ∈ build_merged aw au now oldD newD, p.2.title = p.1 := by
  unfold build_merged
  refine merge_fold_pred hold ?_
  intro acc b hb hacc
  cases hl : alist_lookup b.1 acc with
  | some old_entry =>
      have hti : old_entry.title = b.1 := hacc _ (alist_lookup_mem hl)
      simp only [hl]
      simpa [merge_entry] using hti
  | none =>
      have hti : b.2.title = b.1 := hnew b hb
      simp only [hl]
      simpa [init_new_entry] using hti

/-- Merged dict lookup for a title present on both sides. -/
theorem build_merged_lookup_matched {aw au : Bool} {now : String}
    {oldD newD : List (String × SeriesEntry)} {t : String} {oe ne : SeriesEntry}
    (hnd : (newD.map Prod.fst).Nodup)
    (hoe : alist_lookup t oldD = some oe) (hne : alist_lookup t newD = some ne) :
    alist_lookup t (build_merged aw au now oldD newD) =
      some (merge_entry aw au now oe ne) := by
  obtain ⟨pre, post, hsplit, hpre, hpost⟩ := alist_lookup_split hnd hne
  unfold build_merged
  rw [hsplit, merge_fold_lookup_split (show Prod.fst (t, ne) = t from rfl) hpost]
  have hA : alist_lookup t (merge_fold Prod.fst
      (fun merged p =>
        match alist_lookup p.1 merged with
        | some old_entry => merge_entry aw au now old_entry p.2
        | none => init_new_entry now p.2) oldD pre) = some oe :=
    (merge_fold_lookup_not_mem hpre).trans hoe
  simp only [hA]

/-- Merged dict lookup for a title absent from the fresh data: unchanged. -/
theorem build_merged_lookup_untouched {aw au : Bool} {now : String}
    {oldD newD : List (String × SeriesEntry)} {t : String}
    (hnt : ∀ p ∈ newD, p.1 ≠ t) :
    alist_lookup t (build_merged aw au now oldD newD) = alist_lookup t oldD :=
  merge_fold_lookup_not_mem hnt

/-- Season pairs of the merged season dict keep their key as their label. -/
theorem merge_seasons_coherent {aw au : Bool} {oe ne : SeriesEntry} :
    ∀ p ∈ merge_seasons aw au oe ne, p.2.season = p.1 := by
  unfold merge_seasons
  refine merge_fold_pred dict_of_coherent ?_
  intro acc ns _ hacc
  cases hl : alist_lookup ns.season acc with
  | some os =>
      have := hacc _ (alist_lookup_mem hl)
      simp only [hl]
      simpa using this
  | none => simp only [hl]

/-- Season of the merged entry for a label present on both sides: the old
season with the merged episode list spliced in (and all other stored fields,
including `total_episodes`, untouched). -/
theorem merge_entry_season_matched {aw au : Bool} {now : String}
    {oe ne : SeriesEntry} {l : String} {os ns : Season}
    (hosl : (oe.seasons.map Season.season).Nodup)
    (hnsl : (ne.seasons.map Season.season).Nodup)
    (hos : lookup_season l oe.seasons = some os)
    (hns : lookup_season l ne.seasons = some ns) :
    lookup_season l (merge_entry aw au now oe ne).seasons =
      some { os with episodes := merge_episodes aw au os.episodes ns.episodes } := by
  have hseasons : (merge_entry aw au now oe ne).seasons =
      (merge_seasons aw au oe ne).map Prod.snd := rfl
  rw [hseasons]
  unfold lookup_season
  rw [find_by_values merge_seasons_coherent]
  obtain ⟨pre, post, hsplit, hpre⟩ := find_by_split hns
  have hnsk : ns.season = l := find_by_eq hns
  have hpost : ∀ y ∈ post, y.season ≠ l := by
    rw [hsplit] at hnsl
    exact nodup_split_right hnsl hnsk
  unfold merge_seasons
  rw [hsplit, merge_fold_lookup_split hnsk hpost]
  have hA : alist_lookup l (merge_fold Season.season
      (fun acc ns =>
        match alist_lookup ns.season acc with
        | some os =>
            { os with
              episodes := merge_episodes aw au os.episodes ns.episodes }
        | none => ns)
      (dict_of Season.season oe.seasons) pre) = some os := by
    rw [merge_fold_lookup_not_mem hpre, dict_of_lookup hosl]
    exact hos
  rw [hnsk]
  simp only [hA]

/-- Gating preserves the episode number. -/
theorem gated_episode_number (aw au : Bool) (o e : Episode) :
    (gated_episode aw au o e).number = e.number := by
  unfold gated_episode
  split
  · rfl
  · split <;> rfl

/-- One step of `merge_episodes` preserves the episode number. -/
theorem merge_one_episode_number (aw au : Bool) (old_eps : List Episode) (e : Episode) :
    (match alist_lookup e.number (dict_of Episode.number old_eps) with
      | some old_ep => gated_episode aw au old_ep e
      | none => e).number = e.number := by
  cases alist_lookup e.number (dict_of Episode.number old_eps) with
  | none => rfl
  | some oep => simp only [gated_episode_number]

/-- Merged episode numbers are exactly the fresh episode numbers, in order. -/
theorem merge_episodes_numbers (aw au : Bool) (old_eps new_eps : List Episode) :
    (merge_episodes aw au old_eps new_eps).map Episode.number =
      new_eps.map Episode.number := by
  unfold merge_episodes
  rw [List.map_map]
  congr 1
  funext e
  simp only [Function.comp]
  exact merge_one_episode_number aw au old_eps e

/-- Episode lookup into a merged episode list. -/
theorem merge_episodes_lookup {aw au : Bool} {old_eps new_eps : List Episode}
    {n : String} {oep nep : Episode}
    (hoen : (old_eps.map Episode.number).Nodup)
    (hoep : lookup_episode n old_eps = some oep)
    (hnep : lookup_episode n new_eps = some nep) :
    lookup_episode n (merge_episodes aw au old_eps new_eps) =
      some (gated_episode aw au oep nep) := by
  have hnep2 : find_by Episode.number n new_eps = some nep := hnep
  have hoep2 : find_by Episode.number n old_eps = some oep := hoep
  unfold merge_episodes lookup_episode
  rw [find_by_map_invariant (merge_one_episode_number aw au old_eps), hnep2]
  have hn : nep.number = n := find_by_eq hnep2
  have hlk : alist_lookup nep.number (dict_of Episode.number old_eps) = some oep := by
    rw [hn, dict_of_lookup hoen]
    exact hoep2
  simp [hlk]

/-! ### The `old_eps` dict of `print_changes` -/

/-- Folding seasons whose label differs from `l` never touches `(l, n)`. -/
theorem old_eps_fold_preserves {l n : String} (seasons : List Season)
    (hs : ∀ s ∈ seasons, s.season ≠ l) (acc : List ((String × String) × Bool)) :
    alist_lookup (l, n)
      (seasons.foldl
        (fun acc s =>
          s.episodes.foldl (fun a ep => alist_upsert (s.season, ep.number) ep.watched a) acc)
        acc) = alist_lookup (l, n) acc := by
  induction seasons generalizing acc with
  | nil => rfl
  | cons s ss ih =>
      rw [List.foldl_cons]
      rw [ih (fun z hz => hs z (List.mem_cons_of_mem _ hz))]
      have hinner : s.episodes.foldl
          (fun a ep => alist_upsert (s.season, ep.number) ep.watched a) acc =
          merge_fold (fun ep => (s.season, ep.number)) (fun _ ep => ep.watched)
            acc s.episodes := rfl
      rw [hinner]
      refine merge_fold_lookup_not_mem ?_
      intro ep _ hk
      exact hs s (List.mem_cons_self s ss) (congrArg Prod.fst hk)

/-- Lookup into `old_eps` of the old entry, with unique season labels and
unique episode numbers in the looked-up season. -/
theorem old_eps_map_lookup {oe : SeriesEntry} {l n : String} {os : Season}
    {oep : Episode}
    (hosl : (oe.seasons.map Season.season).Nodup)
    (hos : lookup_season l oe.seasons = some os)
    (hoen : (os.episodes.map Episode.number).Nodup)
    (hoep : lookup_episode n os.episodes = some oep) :
    alist_lookup (l, n) (old_eps_map oe) = some oep.watched := by
  obtain ⟨pre, post, hsplit, hpre⟩ := find_by_split hos
  have hosk : os.season = l := find_by_eq hos
  have hpost : ∀ y ∈ post, y.season ≠ l := by
    rw [hsplit] at hosl
    exact nodup_split_right hosl hosk
  unfold old_eps_map
  rw [hsplit, List.foldl_append, List.foldl_cons]
  rw [old_eps_fold_preserves post hpost]
  have hinner : ∀ acc, os.episodes.foldl
      (fun a ep => alist_upsert (os.season, ep.number) ep.watched a) acc =
      merge_fold (fun ep => (os.season, ep.number)) (fun _ ep => ep.watched)
        acc os.episodes := fun acc => rfl
  rw [hinner]
  obtain ⟨epre, epost, hesplit, hepre⟩ := find_by_split hoep
  have hoepn : oep.number = n := find_by_eq hoep
  have hepost : ∀ y ∈ epost, y.number ≠ n := by
    rw [hesplit] at hoen
    exact nodup_split_right hoen hoepn
  rw [hesplit]
  refine merge_fold_lookup_split ?_ ?_
  · rw [hosk, hoepn]
  · intro y hy hk
    exact hepost y hy (congrArg Prod.snd hk)

/-! ### Membership in the change lists -/

/-- A classified fresh episode of a matched title appears in the
corresponding change list of `print_changes`. -/
theorem mem_changes_list {cls : EpChange} {oldD newD : List (String × SeriesEntry)}
    {t : String} {oe ne : SeriesEntry} {ns : Season} {nep : Episode}
    (hoe : alist_lookup t oldD = some oe)
    (hne : alist_lookup t newD = some ne)
    (hns : ns ∈ ne.seasons) (hnep : nep ∈ ns.episodes)
    (hcls : ep_change_class (old_eps_map oe) ns.season nep = cls) :
    (t, ns.season, nep.number) ∈ changes_list cls oldD newD := by
  unfold changes_list
  rw [List.mem_flatMap]
  refine ⟨(t, ne), alist_lookup_mem hne, ?_⟩
  simp only [hoe]
  rw [List.mem_map]
  refine ⟨(ns.season, nep.number), ?_, rfl⟩
  unfold entry_changes_of
  rw [List.mem_flatMap]
  refine ⟨ns, hns, ?_⟩
  rw [List.mem_filterMap]
  exact ⟨nep, hnep, by rw [hcls]; simp⟩

/-- An approved completion gate is effective exactly when the change list is
non-empty. -/
theorem allow_watched_of_mem {wr : Bool} {ch : Changes} {x : String × String × String}
    (hx : x ∈ ch.newly_watched) : allow_watched_flag wr ch = wr := by
  unfold allow_watched_flag
  cases hch : ch.newly_watched with
  | nil => rw [hch] at hx; simp at hx
  | cons a l => simp

theorem allow_unwatched_of_mem {ur : Bool} {ch : Changes} {x : String × String × String}
    (hx : x ∈ ch.newly_unwatched) : allow_unwatched_flag ur ch = ur := by
  unfold allow_unwatched_flag
  cases hch : ch.newly_unwatched with
  | nil => rw [hch] at hx; simp at hx
  | cons a l => simp

end MergeLemmas

/-! ## Top-level helper lemmas shared by the claim theorems -/

section TopLemmas

/-- Every value of `dict_of key xs` comes from `xs`. -/
theorem dict_of_mem {α : Type} {κ : Type} [DecidableEq κ] {key : α → κ}
    {xs : List α} : ∀ p ∈ dict_of key xs, p.2 ∈ xs :=
  merge_fold_pred (by simp) (fun _ b hb _ => hb)

/-- The merged index of `confirm_and_save_changes` at a title present in both
the persisted index dict and the fresh data dict: exactly the merged entry,
under the gate flags the prompts produce. -/
theorem confirm_merge_lookup_matched {wr ur : Bool} {now : String}
    {old_data new_data : List SeriesEntry} {t : String} {oe ne : SeriesEntry}
    (hoe : alist_lookup t (dict_of SeriesEntry.title old_data) = some oe)
    (hne : alist_lookup t (dict_of SeriesEntry.title new_data) = some ne) :
    lookup_title t (confirm_merge wr ur now old_data new_data) =
      some (merge_entry
        (allow_watched_flag wr (print_changes (dict_of SeriesEntry.title old_data)
          (dict_of SeriesEntry.title new_data)))
        (allow_unwatched_flag ur (print_changes (dict_of SeriesEntry.title old_data)
          (dict_of SeriesEntry.title new_data)))
        now oe ne) := by
  unfold confirm_merge lookup_title
  rw [find_by_values (build_merged_coherent dict_of_coherent dict_of_coherent)]
  exact build_merged_lookup_matched (dict_of_keys_nodup _) hoe hne

/-- The merged index at a title absent from the fresh data: the old entry. -/
theorem confirm_merge_lookup_untouched {wr ur : Bool} {now : String}
    {old_data new_data : List SeriesEntry} {t : String}
    (habsent : ∀ ne ∈ new_data, ne.title ≠ t) :
    lookup_title t (confirm_merge wr ur now old_data new_data) =
      alist_lookup t (dict_of SeriesEntry.title old_data) := by
  unfold confirm_merge lookup_title
  rw [find_by_values (build_merged_coherent dict_of_coherent dict_of_coherent)]
  refine build_merged_lookup_untouched ?_
  intro p hp
  have h1 : p.2.title = p.1 := dict_of_coherent p hp
  have h2 : p.2 ∈ new_data := dict_of_mem p hp
  rw [← h1]
  exact habsent p.2 h2

/-- Once past the first season, the `assume_grey_unwatched` flag can never
change (the activation test requires `idx == 0`), so the rest of the loop is
a plain map of the per-season branch under the fixed flag. -/
theorem process_seasons_loop_const_flag (fetch : String → List Episode)
    (es : List (String × Season)) (rest : List SeasonLink) (idx : Nat) (b : Bool)
    (hidx : idx ≠ 0) :
    process_seasons_loop fetch es rest idx b =
      rest.map (process_season fetch es b) := by
  induction rest generalizing idx with
  | nil => rfl
  | cons sl rs ih =>
      unfold process_seasons_loop
      have h0 : (idx == 0) = false := by simp [hidx]
      rw [h0]
      simp only [Bool.false_and, Bool.false_eq_true, if_false]
      rw [ih (idx + 1) (by omega)]
      simp

/-- Flatten of the initial empty pools. -/
theorem flatten_replicate_nil {α : Type} (n : Nat) :
    (List.replicate n ([] : List α)).flatten = [] := by
  induction n with
  | zero => rfl
  | succ n ih => simp [List.replicate, ih]

end TopLemmas

/-! ## Claim theorems -/

/-- C2: every entity of the persisted index whose title does not appear in
the fresh run data is still present, with all fields unchanged, both in the
merged index built by `confirm_and_save_changes` and in the index list it
writes when the final save is confirmed — a partial run never removes or
alters entities it did not cover. -/
theorem C2_uncovered_entities_preserved
    (wr ur sr : Bool) (now t : String) (old_data new_data : List SeriesEntry)
    (e : SeriesEntry)
    (habsent : ∀ ne ∈ new_data, ne.title ≠ t)
    (hold : alist_lookup t (dict_of SeriesEntry.title old_data) = some e) :
    lookup_title t (confirm_merge wr ur now old_data new_data) = some e ∧
    ∀ idx, (confirm_and_save_changes wr ur sr now old_data new_data).2 = some idx →
      lookup_title t idx = some e := by
  have hmerge : lookup_title t (confirm_merge wr ur now old_data new_data) = some e :=
    (confirm_merge_lookup_untouched habsent).trans hold
  refine ⟨hmerge, ?_⟩
  intro idx hidx
  simp only [confirm_and_save_changes] at hidx
  by_cases h0 : main_changes_count wr ur (print_changes
      (dict_of SeriesEntry.title old_data) (dict_of SeriesEntry.title new_data)) = 0
  · rw [if_pos h0] at hidx
    simp at hidx
  · rw [if_neg h0] at hidx
    by_cases hs : sr = true
    · rw [if_pos hs] at hidx
      have heq : confirm_merge wr ur now old_data new_data = idx := by
        simpa using hidx
      rw [← heq]
      exact hmerge
    · rw [if_neg hs] at hidx
      simp at hidx

/-- C2 witness: a persisted entity `"Y"` untouched by a run that only covers
`"X"` survives the merge and the saved index unchanged. -/
theorem C2_witness :
    (∀ ne ∈ [c2_new_entry], SeriesEntry.title ne ≠ "Y") ∧
    alist_lookup "Y" (dict_of SeriesEntry.title [c2_old_entry]) = some c2_old_entry ∧
    lookup_title "Y" (confirm_merge true true "NOW" [c2_old_entry] [c2_new_entry]) =
      some c2_old_entry := by
  refine ⟨by decide, by decide, ?_⟩
  exact (C2_uncovered_entities_preserved true true true "NOW" "Y"
    [c2_old_entry] [c2_new_entry] c2_old_entry (by decide) (by decide)).1

/-- C3 (code bug): the checkpoint is flushed after every 10th success — after
ten successful entities the checkpoint file holds their links — but a run
interrupted by `KeyboardInterrupt` does NOT leave its checkpoint file in
place: the interrupt is swallowed inside `_scrape_series_parallel`
(lines 1107-1113), the method returns normally, and `run` (lines 1564-1567)
unconditionally deletes the checkpoint (second conjunct: for every initial
state, event sequence, and interrupt status).  The printed hint
`Use Resume from checkpoint` is therefore wrong. -/
theorem C3_interrupted_run_loses_checkpoint :
    (scrape_series_parallel (init_state ⟨none, none⟩) c3_events true).files.checkpoint =
      some (c3_hints.map SeriesHint.link) ∧
    ∀ (st0 : ScrapeState) (events : List WorkerEvent) (interrupted : Bool),
      (run_scraper st0 events interrupted).files.checkpoint = none := by
  refine ⟨by decide, ?_⟩
  intro st0 events interrupted
  rfl

/-- C4 (code bug): a run that ends with a failed entity does write the
FailedSet (first conjunct), but the file does not remain available for a
later retry pass: `run` (lines 1564-1567) unconditionally deletes it right
after the scraping method returns, for every initial state and event
sequence (second conjunct), despite printing
`Saved to .failed_series.json for retry`. -/
theorem C4_failed_set_not_persisted :
    (scrape_series_parallel (init_state ⟨none, none⟩) [.err c4_hint] false).files.failed =
      some [c4_hint] ∧
    ∀ (st0 : ScrapeState) (events : List WorkerEvent) (interrupted : Bool),
      (run_scraper st0 events interrupted).files.failed = none := by
  refine ⟨by decide, ?_⟩
  intro st0 events interrupted
  rfl

/-- C5 (code bug): the pause file created by the CLI (`data/.pause_scraping`,
main.py line 452) is not the file the workers poll between entities
(`data/.scrape_pause`, scraper.py lines 94 and 290-292): on a filesystem
holding nothing else, after the CLI signals a pause, `is_pause_requested`
still answers `false`, so no worker ever observes the signal — while the
check itself does fire on the scraper's own file name (third conjunct). -/
theorem C5_cli_pause_signal_never_observed :
    is_pause_requested (pause_scraping (fun _ => false)) = false ∧
    pause_file_cli ≠ pause_file_scraper ∧
    is_pause_requested (fun p => decide (p = pause_file_scraper)) = true := by
  refine ⟨by decide, by decide, by decide⟩

/-- C8: the partitioner of `_scrape_series_parallel` (lines 925-939) with the
worker count the code computes: the number of assignment lists is the worker
count; their concatenation is a permutation of the filtered catalog (so the
union is the catalog with no duplicates); for a duplicate-free catalog the
lists are pairwise disjoint and individually duplicate-free; and the list
sizes differ by at most 1.  The distribution is `entity[i] → worker[i mod N]`
and is a pure function of the catalog order and N, hence deterministic. -/
theorem C8_round_robin_partition (cap : Nat) (all_series : List SeriesHint)
    (n : Nat) (pools : List (List SeriesHint))
    (hn : n = worker_count_of cap (filter_series all_series).length)
    (hp : pools = worker_pools n (filter_series all_series))
    (hnd : (filter_series all_series).Nodup) :
    pools.length = n ∧
    pools.flatten.Perm (filter_series all_series) ∧
    List.Pairwise List.Disjoint pools ∧
    (∀ l ∈ pools, l.Nodup) ∧
    (∀ j k, j < n → k < n →
      (pools.getD j []).length ≤ (pools.getD k []).length + 1) := by
  have hn0 : 0 < n := by
    rw [hn]
    simp only [worker_count_of]
    split <;> omega
  have hlen0 : (List.replicate n ([] : List SeriesHint)).length = n := by simp
  have hlen : pools.length = n := by
    rw [hp]
    unfold worker_pools
    rw [distribute_aux_length, hlen0]
  have hperm : pools.flatten.Perm (filter_series all_series) := by
    rw [hp]
    unfold worker_pools
    have := distribute_aux_flatten hn0 (filter_series all_series) 0
      (List.replicate n []) hlen0
    rwa [flatten_replicate_nil, List.nil_append] at this
  have hjoin : pools.flatten.Nodup := (hperm.nodup_iff).mpr hnd
  have hdisj := List.nodup_flatten.mp hjoin
  refine ⟨hlen, hperm, hdisj.2, hdisj.1, ?_⟩
  intro j k hj hk
  have hsize : ∀ m, m < n → (pools.getD m []).length =
      (List.range (filter_series all_series).length).countP (fun t => t % n = m) := by
    intro m hm
    rw [hp]
    unfold worker_pools
    rw [distribute_aux_pool_length hn0 _ 0 _ hlen0 m, getD_replicate_nil]
    simp only [List.length_nil, Nat.zero_add]
  rw [hsize j hj, hsize k hk]
  exact countP_mod_balanced _ hj hk

/-- C8 witness: five catalog entities across the computed worker count
(`min 2 5 = 2`), instantiating every hypothesis. -/
theorem C8_witness :
    (filter_series c8_catalog).Nodup ∧
    ((worker_pools (worker_count_of 2 (filter_series c8_catalog).length)
        (filter_series c8_catalog)).length =
      worker_count_of 2 (filter_series c8_catalog).length ∧
    (worker_pools (worker_count_of 2 (filter_series c8_catalog).length)
        (filter_series c8_catalog)).flatten.Perm (filter_series c8_catalog) ∧
    List.Pairwise List.Disjoint (worker_pools
        (worker_count_of 2 (filter_series c8_catalog).length)
        (filter_series c8_catalog)) ∧
    (∀ l ∈ worker_pools (worker_count_of 2 (filter_series c8_catalog).length)
        (filter_series c8_catalog), l.Nodup) ∧
    ∀ j k, j < worker_count_of 2 (filter_series c8_catalog).length →
      k < worker_count_of 2 (filter_series c8_catalog).length →
      ((worker_pools (worker_count_of 2 (filter_series c8_catalog).length)
          (filter_series c8_catalog)).getD j []).length ≤
        ((worker_pools (worker_count_of 2 (filter_series c8_catalog).length)
            (filter_series c8_catalog)).getD k []).length + 1) :=
  ⟨by decide, C8_round_robin_partition 2 c8_catalog _ _ rfl rfl (by decide)⟩

/-- C9: in `_process_series_with_driver` (lines 1363-1406), a season whose
hint is fully-complete but which has no cached prior version with a
non-empty episode list is processed by a live item fetch, and the reported
episodes are exactly the fetched ones with their counters derived from them
(first group of conjuncts); conversely, any season branch that skips the
live fetch has a cached season with a non-empty episode list — items are
never fabricated. -/
theorem C9_full_hint_without_cache_is_live_fetched
    (fetch : String → List Episode) (es : List (String × Season)) (b : Bool)
    (sl : SeasonLink)
    (hfull : sl.status = "full")
    (hnc : ∀ cs, alist_lookup sl.label es = some cs → cs.episodes = []) :
    ((process_season fetch es b sl).live_fetch = true ∧
     (process_season fetch es b sl).data.episodes = fetch sl.url ∧
     (process_season fetch es b sl).data.watched_episodes =
       (fetch sl.url).countP (fun ep => ep.watched) ∧
     (process_season fetch es b sl).data.total_episodes = (fetch sl.url).length) ∧
    ∀ (b2 : Bool) (sl2 : SeasonLink),
      (process_season fetch es b2 sl2).live_fetch = false →
      ∃ cs, alist_lookup sl2.label es = some cs ∧ cs.episodes ≠ [] := by
  constructor
  · have hst : (sl.status == "none") = false := by
      rw [hfull]; decide
    have heval : process_season fetch es b sl =
        ⟨mk_season_data sl (fetch sl.url)
          ((fetch sl.url).countP (fun ep => ep.watched)) (fetch sl.url).length,
         false, true⟩ := by
      simp only [process_season, hst, Bool.and_false, Bool.false_and]
      simp only [Bool.false_eq_true, if_false]
      cases hc : alist_lookup sl.label es with
      | none => rfl
      | some cs =>
          have hemp : cs.episodes = [] := hnc cs hc
          simp [hemp]
    rw [heval]
    exact ⟨rfl, rfl, rfl, rfl⟩
  · intro b2 sl2 h
    simp only [process_season] at h
    cases hc : alist_lookup sl2.label es with
    | none =>
        rw [hc] at h
        split at h <;> simp at h
    | some cs =>
        rw [hc] at h
        simp only [] at h
        refine ⟨cs, rfl, ?_⟩
        intro hemp
        rw [hemp] at h
        split at h <;> simp at h

/-- C9 witness: a fully-complete hint with an empty cache dict forces a live
fetch that reports the fetched episode list. -/
theorem C9_witness :
    c9_link.status = "full" ∧
    (process_season c9_fetch [] false c9_link).live_fetch = true ∧
    (process_season c9_fetch [] false c9_link).data.episodes = c9_fetch c9_link.url := by
  have h := (C9_full_hint_without_cache_is_live_fetched c9_fetch [] false c9_link
    rfl (by intro cs hcs; simp [alist_lookup, find_by] at hcs)).1
  exact ⟨rfl, h.1, h.2.1⟩

/-- Forcing episodes to unwatched leaves no watched item. -/
theorem forced_episodes_unwatched (eps : List Episode) :
    (forced_episodes false eps).all (fun ep => !ep.watched) = true := by
  unfold forced_episodes
  rw [List.all_map]
  simp [Function.comp]

/-- Evaluation of the season branch when the assumption flag is set and the
season is regular with unknown hint (lines 1339-1362). -/
theorem process_season_assumed (fetch : String → List Episode)
    (es : List (String × Season)) (sl2 : SeasonLink)
    (hst : sl2.status = "none") (hreg : is_regular_season sl2.label = true) :
    process_season fetch es true sl2 =
      match alist_lookup sl2.label es with
      | some cs =>
          if !cs.episodes.isEmpty then
            ⟨mk_season_data sl2 (forced_episodes false cs.episodes) 0
              (forced_episodes false cs.episodes).length, true, false⟩
          else
            ⟨mk_season_data sl2 (forced_episodes false (fetch sl2.url)) 0
              (forced_episodes false (fetch sl2.url)).length, false, true⟩
      | none =>
          ⟨mk_season_data sl2 (forced_episodes false (fetch sl2.url)) 0
            (forced_episodes false (fetch sl2.url)).length, false, true⟩ := by
  have hcond : (true && sl2.status == "none" && is_regular_season sl2.label) = true := by
    rw [hst, hreg]
    decide
  simp only [process_season, hcond, if_pos]

/-- C7 counterexample: the claim says the assumption becomes active *only
when the first processed group is a regular group*.  In the code the
activation test (line 1410) has no `is_regular_season` check: with the
special season `Specials` first (hint unknown, one unwatched episode), the
assumption still activates and season 2 — whose cached copy has a watched
episode, so the plain cache rule would live-fetch it — is skipped from cache
and forced unwatched (second result `(0, false)`), although processing it
without the assumption performs a live fetch (third conjunct). -/
theorem C7_counterexample :
    is_regular_season "Specials" = false ∧
    (process_series_with_driver c7_fetch (some c7_existing_entry) "uz" c7_links).map
        (fun r => (r.data.watched_episodes, r.live_fetch)) = [(0, true), (0, false)] ∧
    (process_season c7_fetch (existing_seasons_of (some c7_existing_entry)) false
        ⟨"2", "u2", "none"⟩).live_fetch = true :=
  ⟨by decide, by decide, by decide⟩

/-- C7 (amended): within one entity, the assumption activates exactly when
the first processed group's hint is unknown and its result is a non-empty,
fully-unwatched item set — with no regularity requirement on that first
group — and afterwards the flag never changes (first conjunct: the loop tail
is a plain map under the activation flag).  The assumption is applied only
to subsequent regular groups with unknown hint: it has no effect on special
groups (second conjunct) nor on groups with a known hint (third conjunct);
where it applies, the group's items are forced to incomplete, taken from the
cached season when one with items exists (no live fetch) and otherwise from
a single live fetch (fourth conjunct). -/
theorem C7_assumption_propagation
    (fetch : String → List Episode) (es : List (String × Season))
    (sl : SeasonLink) (rest : List SeasonLink) :
    (process_seasons_loop fetch es (sl :: rest) 0 false =
      process_season fetch es false sl ::
        rest.map (process_season fetch es
          (sl.status == "none" &&
            (process_season fetch es false sl).data.watched_episodes == 0 &&
            (process_season fetch es false sl).data.total_episodes != 0))) ∧
    (∀ sl2 : SeasonLink, is_regular_season sl2.label = false →
      process_season fetch es true sl2 = process_season fetch es false sl2) ∧
    (∀ sl2 : SeasonLink, sl2.status ≠ "none" →
      process_season fetch es true sl2 = process_season fetch es false sl2) ∧
    (∀ sl2 : SeasonLink, sl2.status = "none" → is_regular_season sl2.label = true →
      (process_season fetch es true sl2).data.watched_episodes = 0 ∧
      (process_season fetch es true sl2).data.episodes.all (fun ep => !ep.watched) = true ∧
      (∀ cs, alist_lookup sl2.label es = some cs → cs.episodes ≠ [] →
        (process_season fetch es true sl2).live_fetch = false ∧
        (process_season fetch es true sl2).data.episodes =
          forced_episodes false cs.episodes) ∧
      (alist_lookup sl2.label es = none →
        (process_season fetch es true sl2).live_fetch = true ∧
        (process_season fetch es true sl2).data.episodes =
          forced_episodes false (fetch sl2.url))) := by
  refine ⟨?_, ?_, ?_, ?_⟩
  · simp only [process_seasons_loop]
    have h1 : ((0 : Nat) == 0) = true := rfl
    rw [h1]
    simp only [Bool.true_and]
    have h2 : ∀ c : Bool, (if c = true then true else false) = c := by
      intro c; cases c <;> simp
    rw [h2]
    rw [process_seasons_loop_const_flag fetch es rest 1 _ (by omega)]
  · intro sl2 hreg
    unfold process_season
    rw [hreg]
    simp only [Bool.and_false, Bool.false_and, Bool.false_eq_true, if_false]
  · intro sl2 hst
    have h : (sl2.status == "none") = false := by
      simp [hst]
    unfold process_season
    rw [h]
    simp only [Bool.and_false, Bool.false_and, Bool.true_and, Bool.false_eq_true, if_false]
  · intro sl2 hst hreg
    rw [process_season_assumed fetch es sl2 hst hreg]
    cases hc : alist_lookup sl2.label es with
    | none =>
        simp only []
        exact ⟨by first | rfl | trivial, forced_episodes_unwatched _,
          by intro cs hcs; simp at hcs,
          fun _ => ⟨by first | rfl | trivial, by first | rfl | trivial⟩⟩
    | some cs =>
        simp only []
        by_cases hemp : cs.episodes.isEmpty = true
        · have hnil : cs.episodes = [] := by
            cases hx : cs.episodes with
            | nil => rfl
            | cons a as => rw [hx] at hemp; simp at hemp
          simp only [hemp, Bool.not_true, Bool.false_eq_true, if_false]
          refine ⟨by first | rfl | trivial, forced_episodes_unwatched _, ?_, ?_⟩
          · intro cs2 hcs2 hne2
            have hcc : cs2 = cs := by
              injection hcs2 with h
              exact h.symm
            rw [hcc, hnil] at hne2
            exact absurd rfl hne2
          · intro habs
            simp at habs
        · have hemp2 : cs.episodes.isEmpty = false := by
            cases hx : cs.episodes.isEmpty with
            | false => rfl
            | true => exact absurd hx hemp
          simp only [hemp2, Bool.not_false, if_pos]
          refine ⟨by first | rfl | trivial, forced_episodes_unwatched _, ?_, ?_⟩
          · intro cs2 hcs2 hne2
            have hcc : cs2 = cs := by
              injection hcs2 with h
              exact h.symm
            rw [hcc]
            exact ⟨by first | rfl | trivial, by first | rfl | trivial⟩
          · intro habs
            simp at habs

/-- C7 witness: the amended theorem instantiated — the assumption has no
effect on a special season, and an assumed regular grey season reports zero
watched episodes. -/
theorem C7_amended_witness :
    process_season c7_fetch (existing_seasons_of (some c7_existing_entry)) true
        ⟨"Specials", "uS", "none"⟩ =
      process_season c7_fetch (existing_seasons_of (some c7_existing_entry)) false
        ⟨"Specials", "uS", "none"⟩ ∧
    (process_season c7_fetch (existing_seasons_of (some c7_existing_entry)) true
        ⟨"2", "u2", "none"⟩).data.watched_episodes = 0 := by
  have h := C7_assumption_propagation c7_fetch
    (existing_seasons_of (some c7_existing_entry)) ⟨"Specials", "uS", "none"⟩ []
  exact ⟨h.2.1 ⟨"Specials", "uS", "none"⟩ (by decide),
    (h.2.2.2 ⟨"2", "u2", "none"⟩ rfl (by decide)).1⟩

/-- C6 counterexample: the claim says the entity-level total count is
recomputed from the merged items.  Merging a prior season that stored 3
episodes with a fresh fetch of 5 episodes yields a merged entity whose
season holds 5 items, yet whose `total_episodes` is 3: line 428 sums the
seasons' *stored* `total_episodes` fields, and the merge replaces a matched
season's episode list without updating that stored field. -/
theorem C6_counterexample :
    ((lookup_title "X" (confirm_merge false false "NOW" [c6_old_entry] [c6_new_entry])).map
        (fun me => me.total_episodes)) = some 3 ∧
    ((lookup_title "X" (confirm_merge false false "NOW" [c6_old_entry] [c6_new_entry])).map
        (fun me => (me.seasons.map (fun s => s.episodes.length)).sum)) = some 5 :=
  ⟨by decide, by decide⟩

/-- C6 (amended): for an entity present in both the persisted index and the
run result, the merged entity's completed count is recomputed from the
merged items, but its total count is the sum of the per-season *stored*
`total_episodes` counters: a season present in both runs contributes the
prior season's stored counter even though its item list is replaced by the
fresh items — so the total can differ from the actual merged item count. -/
theorem C6_entity_counters (wr ur : Bool) (now t l : String)
    (old_data new_data : List SeriesEntry) (oe ne : SeriesEntry) (os ns : Season)
    (hoe : alist_lookup t (dict_of SeriesEntry.title old_data) = some oe)
    (hne : alist_lookup t (dict_of SeriesEntry.title new_data) = some ne)
    (hosl : (oe.seasons.map Season.season).Nodup)
    (hnsl : (ne.seasons.map Season.season).Nodup)
    (hos : lookup_season l oe.seasons = some os)
    (hns : lookup_season l ne.seasons = some ns) :
    ∃ me ms,
      lookup_title t (confirm_merge wr ur now old_data new_data) = some me ∧
      me.watched_episodes = count_watched me.seasons ∧
      me.total_episodes = (me.seasons.map Season.total_episodes).sum ∧
      lookup_season l me.seasons = some ms ∧
      ms.total_episodes = os.total_episodes ∧
      ms.episodes.map Episode.number = ns.episodes.map Episode.number := by
  have hme := @confirm_merge_lookup_matched wr ur now old_data new_data t oe ne hoe hne
  refine ⟨_, _, hme, rfl, rfl, merge_entry_season_matched hosl hnsl hos hns, rfl, ?_⟩
  exact merge_episodes_numbers _ _ _ _

/-- C6 witness: the amended theorem at the concrete counterexample input —
the merged entity satisfies both stored-counter equations, its matched
season keeps the stored total 3 while carrying the 5 fresh items. -/
theorem C6_entity_counters_witness :
    ∃ me ms,
      lookup_title "X" (confirm_merge false false "NOW" [c6_old_entry] [c6_new_entry]) =
        some me ∧
      me.watched_episodes = count_watched me.seasons ∧
      me.total_episodes = (me.seasons.map Season.total_episodes).sum ∧
      lookup_season "1" me.seasons = some ms ∧
      ms.total_episodes = 3 ∧
      ms.episodes.length = 5 := by
  obtain ⟨me, ms, h1, h2, h3, h4, h5, h6⟩ :=
    @C6_entity_counters false false "NOW" "X" "1" [c6_old_entry] [c6_new_entry]
      c6_old_entry c6_new_entry c6_old_season c6_new_season
      (by decide) (by decide) (by decide) (by decide) (by decide) (by decide)
  refine ⟨me, ms, h1, h2, h3, h4, ?_, ?_⟩
  · rw [h5]
    decide
  · have hlen : ms.episodes.length = (ms.episodes.map Episode.number).length := by
      rw [List.length_map]
    rw [hlen, h6]
    decide

/-- Gating preserves the episode title. -/
theorem gated_episode_title (aw au : Bool) (o e : Episode) :
    (gated_episode aw au o e).title = e.title := by
  unfold gated_episode
  split
  · rfl
  · split <;> rfl

/-- C10 (implicit): for an entity and a group label present in both the
persisted index and the run result, the merged group's item list consists
exactly of the freshly fetched items (same numbers, same order, same
titles), each carrying either the gated fresh value or the prior completed
value; an item that exists only in the prior version of the group is absent
from the merged group — and all of this holds for every combination of gate
responses, i.e. the removal is not subject to any confirmation gate. -/
theorem C10_merged_group_is_fresh_item_list (wr ur : Bool) (now t l : String)
    (old_data new_data : List SeriesEntry) (oe ne : SeriesEntry) (os ns : Season)
    (hoe : alist_lookup t (dict_of SeriesEntry.title old_data) = some oe)
    (hne : alist_lookup t (dict_of SeriesEntry.title new_data) = some ne)
    (hosl : (oe.seasons.map Season.season).Nodup)
    (hnsl : (ne.seasons.map Season.season).Nodup)
    (hos : lookup_season l oe.seasons = some os)
    (hns : lookup_season l ne.seasons = some ns) :
    ∃ me ms,
      lookup_title t (confirm_merge wr ur now old_data new_data) = some me ∧
      lookup_season l me.seasons = some ms ∧
      ms.episodes.map Episode.number = ns.episodes.map Episode.number ∧
      (∀ oep ∈ os.episodes, oep.number ∉ ns.episodes.map Episode.number →
        oep.number ∉ ms.episodes.map Episode.number) ∧
      ∀ mep ∈ ms.episodes, ∃ nep ∈ ns.episodes, mep.number = nep.number ∧
        mep.title = nep.title ∧
        (mep.watched = nep.watched ∨ ∃ oep ∈ os.episodes, mep.watched = oep.watched) := by
  have hme := @confirm_merge_lookup_matched wr ur now old_data new_data t oe ne hoe hne
  have hnums := merge_episodes_numbers
    (allow_watched_flag wr (print_changes (dict_of SeriesEntry.title old_data)
      (dict_of SeriesEntry.title new_data)))
    (allow_unwatched_flag ur (print_changes (dict_of SeriesEntry.title old_data)
      (dict_of SeriesEntry.title new_data)))
    os.episodes ns.episodes
  refine ⟨_, _, hme, merge_entry_season_matched hosl hnsl hos hns, hnums, ?_, ?_⟩
  · intro oep _ hnot
    rw [hnums]
    exact hnot
  · intro mep hmep
    unfold merge_episodes at hmep
    rw [List.mem_map] at hmep
    obtain ⟨nep, hnepmem, hg⟩ := hmep
    cases hlk : alist_lookup nep.number (dict_of Episode.number os.episodes) with
    | none =>
        rw [hlk] at hg
        exact ⟨nep, hnepmem, by rw [← hg], by rw [← hg], Or.inl (by rw [← hg])⟩
    | some oep =>
        rw [hlk] at hg
        simp only [] at hg
        refine ⟨nep, hnepmem, by rw [← hg]; exact gated_episode_number _ _ _ _,
          by rw [← hg]; exact gated_episode_title _ _ _ _, ?_⟩
        have hoepmem : oep ∈ os.episodes := by
          have hpair := alist_lookup_mem hlk
          exact dict_of_mem _ hpair
        rw [← hg]
        unfold gated_episode
        split
        · rename_i hb
          left
          simp only [Bool.and_eq_true] at hb
          simp [hb.2.2]
        · split
          · rename_i hb
            left
            simp only [Bool.and_eq_true] at hb
            have hnw : nep.watched = false := by
              cases hx : nep.watched
              · rfl
              · rw [hx] at hb
                simp at hb
            simp [hnw]
          · right
            exact ⟨oep, hoepmem, rfl⟩

/-- C10 witness: the prior-only episode 9 is gone from the merged group,
whose item numbers are exactly the fresh ones. -/
theorem C10_witness :
    ∃ me ms,
      lookup_title "X" (confirm_merge true true "NOW" [c10_old_entry] [c10_new_entry]) =
        some me ∧
      lookup_season "1" me.seasons = some ms ∧
      ms.episodes.map Episode.number = ["1", "2"] ∧
      "9" ∉ ms.episodes.map Episode.number := by
  obtain ⟨me, ms, h1, h2, h3, h4, h5⟩ :=
    @C10_merged_group_is_fresh_item_list true true "NOW" "X" "1"
      [c10_old_entry] [c10_new_entry] c10_old_entry c10_new_entry
      c10_old_season c10_new_season
      (by decide) (by decide) (by decide) (by decide) (by decide) (by decide)
  refine ⟨me, ms, h1, h2, ?_, ?_⟩
  · rw [h3]
    decide
  · exact h4 ⟨"9", "lost", true⟩ (by decide) (by decide)

/-- C1: in the merge of `confirm_and_save_changes`, for an item present
(same title, season label, episode number) in both the persisted index and
the run result: a complete→incomplete transition (regression) keeps the old
value unless the regression gate was explicitly approved, in which case it
takes the new value; an incomplete→complete transition (completion) takes
the new value when the completion gate was approved and keeps the old value
when declined; an item with unchanged status keeps its value.  `wr` / `ur`
are the operator's answers to the watched / unwatched prompts, which are the
effective gate flags here because the transition itself guarantees the
corresponding change list is non-empty, so the prompt is actually shown. -/
theorem C1_regression_and_completion_gates
    (wr ur : Bool) (now : String) (old_data new_data : List SeriesEntry)
    (t l n : String) (oe ne : SeriesEntry) (os ns : Season) (oep nep : Episode)
    (hoe : alist_lookup t (dict_of SeriesEntry.title old_data) = some oe)
    (hne : alist_lookup t (dict_of SeriesEntry.title new_data) = some ne)
    (hosl : (oe.seasons.map Season.season).Nodup)
    (hnsl : (ne.seasons.map Season.season).Nodup)
    (hos : lookup_season l oe.seasons = some os)
    (hns : lookup_season l ne.seasons = some ns)
    (hoen : (os.episodes.map Episode.number).Nodup)
    (hoep : lookup_episode n os.episodes = some oep)
    (hnep : lookup_episode n ns.episodes = some nep) :
    ∃ me ms mep,
      lookup_title t (confirm_merge wr ur now old_data new_data) = some me ∧
      lookup_season l me.seasons = some ms ∧
      lookup_episode n ms.episodes = some mep ∧
      mep.watched =
        (if oep.watched = true ∧ nep.watched = false then
          (if ur = true then nep.watched else oep.watched)
        else if oep.watched = false ∧ nep.watched = true then
          (if wr = true then nep.watched else oep.watched)
        else oep.watched) := by
  have hme := @confirm_merge_lookup_matched wr ur now old_data new_data t oe ne hoe hne
  refine ⟨_, _, _, hme, merge_entry_season_matched hosl hnsl hos hns,
    merge_episodes_lookup hoen hoep hnep, ?_⟩
  have hnsmem : ns ∈ ne.seasons := find_by_mem hns
  have hnsk : ns.season = l := find_by_eq hns
  have hnepmem : nep ∈ ns.episodes := find_by_mem hnep
  have hnepn : nep.number = n := find_by_eq hnep
  have holdeps : alist_lookup (l, n) (old_eps_map oe) = some oep.watched :=
    old_eps_map_lookup hosl hos hoen hoep
  cases how : oep.watched <;> cases hnw : nep.watched
  · -- unchanged: both incomplete
    simp [gated_episode, how, hnw]
  · -- completion: incomplete → complete, gate flag is the watched response
    have hcls : ep_change_class (old_eps_map oe) ns.season nep = .toWatched := by
      unfold ep_change_class
      rw [hnsk, hnepn, holdeps]
      simp [how, hnw]
    have hmem0 := mem_changes_list hoe hne hnsmem hnepmem hcls
    rw [hnsk, hnepn] at hmem0
    have haw : allow_watched_flag wr (print_changes (dict_of SeriesEntry.title old_data)
        (dict_of SeriesEntry.title new_data)) = wr := allow_watched_of_mem hmem0
    simp only [gated_episode, how, hnw, haw]
    cases wr <;> simp
  · -- regression: complete → incomplete, gate flag is the unwatched response
    have hcls : ep_change_class (old_eps_map oe) ns.season nep = .toUnwatched := by
      unfold ep_change_class
      rw [hnsk, hnepn, holdeps]
      simp [how, hnw]
    have hmem0 := mem_changes_list hoe hne hnsmem hnepmem hcls
    rw [hnsk, hnepn] at hmem0
    have hau : allow_unwatched_flag ur (print_changes (dict_of SeriesEntry.title old_data)
        (dict_of SeriesEntry.title new_data)) = ur := allow_unwatched_of_mem hmem0
    simp only [gated_episode, how, hnw, hau]
    cases ur <;> simp
  · -- unchanged: both complete
    simp [gated_episode, how, hnw]

/-- C1 witness: with the regression gate approved and the completion gate
declined, the matched episode 1 (complete→incomplete) takes the new value
`false` in the merged index. -/
theorem C1_witness :
    ∃ me ms mep,
      lookup_title "X" (confirm_merge false true "NOW" [c1_old_entry] [c1_new_entry]) =
        some me ∧
      lookup_season "1" me.seasons = some ms ∧
      lookup_episode "1" ms.episodes = some mep ∧
      mep.watched = false := by
  obtain ⟨me, ms, mep, h1, h2, h3, h4⟩ :=
    @C1_regression_and_completion_gates false true "NOW" [c1_old_entry] [c1_new_entry]
      "X" "1" "1" c1_old_entry c1_new_entry c1_old_season c1_new_season
      ⟨"1", "a", true⟩ ⟨"1", "a", false⟩
      (by decide) (by decide) (by decide) (by decide) (by decide) (by decide)
      (by decide) (by decide) (by decide)
  refine ⟨me, ms, mep, h1, h2, h3, ?_⟩
  rw [h4]
  decide

end BsTo
